import Mathlib

/-!
# Verification of `signal-station.ts`

A shallow embedding of the pub/sub library in `src/signal-station.ts`.

Modelling conventions:

* A `Subscriber` object of the source is modelled by a record carrying the
  callback (see below), the channel name (`signalName`), the one-shot flag
  (`singleSignalOnly`), and an `id : Nat` standing for the JavaScript object
  reference: every call to `subscribe` allocates a fresh object, so the
  channel state carries a `nextId` counter and each new subscriber gets a
  fresh id.  `Array.prototype.indexOf` compares by reference (`===`), which
  the model renders as comparison of ids.
* A callback function is modelled by a `label : Nat` (which function it is —
  two subscriptions of the same function share a label) together with an
  `Action` describing what the callback does to the channel when invoked:
  nothing, unsubscribe its own subscription, unsubscribe the subscription
  with a given identity, or subscribe a fresh passive callback to the same
  channel.  Invocations are recorded in a log of `(label, payload)` pairs;
  the payload type is a parameter and payload values pass through unchanged.
* `subscribers.splice(start, 1)` is modelled by `splice1`, including the
  ECMAScript treatment of a negative `start` (in particular
  `splice(-1, 1)` deletes the last element of a non-empty array).
* `for (const subscriber of subscribers)` iterates the live array by index:
  at each step the current index is checked against the current length and
  the element at that index is read.  `publishLoop` renders this with an
  explicit index and a fuel argument; for the callback family described by
  `Action` each processed subscriber appends at most one (passive)
  subscriber, so the loop makes at most `2·n` steps from an `n`-subscriber
  channel and the default fuel `2·n + 1` is never exhausted.
* The station object is built as `{}` and filled by property assignment.
  Property reads on it (`if (signals[signalName])`) consult the prototype
  chain: on a fresh object literal every property of `Object.prototype`
  (all of them function-valued or the `__proto__` accessor, hence truthy)
  is visible.  `jsTruthyLookup` models this with the fixed key list
  `objectPrototypeKeys`.  Property assignment is modelled as appending to an
  association list; the `__proto__` setter special case is unreachable
  because the preceding truthy lookup on `__proto__` always throws first.
* `throw new Error(...)` is modelled by `Except.error` carrying the
  offending signal name (the interpolated `${String(signalName)}` of the
  message).
-/

set_option autoImplicit false

namespace SignalStation

/-- The effect a subscriber callback has on its channel when it is invoked.
`pass` is a callback that does not touch the channel; `unsubSelf` calls
`unsubscribe` on its own subscription object; `unsubId target` calls
`unsubscribe` with a previously captured subscription handle whose identity
is `target`; `subNewPass label` calls `subscribe` on the same channel with a
fresh passive callback `label`. -/
inductive Action where
  | pass : Action
  | unsubSelf : Action
  | unsubId (target : Nat) : Action
  | subNewPass (label : Nat) : Action
deriving DecidableEq

/-- Model of the source's `Subscriber<payloadType>` record: the callback
(`label` plus `action`), the owning channel's name, and the optional
`singleSignalOnly` flag (absent ≡ `false`).  `id` models the JavaScript
object reference created by `subscribe`. -/
structure Subscriber where
  label : Nat
  action : Action
  signalName : String
  singleSignalOnly : Bool
  id : Nat
deriving DecidableEq

/-- The state captured by one `registerSignal` closure: the channel's name
and its `subscribers` array, plus the `nextId` allocator for object
identities. -/
structure ChannelState where
  signalName : String
  subscribers : List Subscriber
  nextId : Nat
deriving DecidableEq

/-- `subscribers.indexOf(subscriber)`: index of the first element that is
reference-equal (same `id`) to the argument, `-1` when absent. -/
def indexOfId (subs : List Subscriber) (i : Nat) : Int :=
  match subs.findIdx? (fun s => s.id == i) with
  | some k => (k : Int)
  | none => -1

/-- `l.splice(start, 1)` as a pure function returning the remaining array.
ECMAScript clamps a negative `start` to `max(length + start, 0)` and a large
`start` to `length`; at most one element (the one at the clamped index) is
removed. -/
def splice1 (l : List Subscriber) (start : Int) : List Subscriber :=
  let actualStart : Nat :=
    if start < 0 then ((l.length : Int) + start).toNat
    else min start.toNat l.length
  l.take actualStart ++ l.drop (actualStart + 1)

/-- The body of the source's `unsubscribe`, applied to a subscription handle
with identity `target`:
`subscribers.splice(subscribers.indexOf(subscriber), 1)`. -/
def unsubscribeId (target : Nat) (st : ChannelState) : ChannelState :=
  { st with subscribers := splice1 st.subscribers (indexOfId st.subscribers target) }

/-- `unsubscribe(subscriber)` from the source: only the object reference
(here `s.id`) of the argument is consulted. -/
def unsubscribe (s : Subscriber) (st : ChannelState) : ChannelState :=
  unsubscribeId s.id st

/-- `subscribe(signalCallback)` from the source: build a subscriber wrapping
the callback and the channel name, `push` it, and return it (here together
with the new channel state). -/
def subscribe (label : Nat) (action : Action) (st : ChannelState) :
    Subscriber × ChannelState :=
  let subscriber : Subscriber :=
    { label := label, action := action, signalName := st.signalName,
      singleSignalOnly := false, id := st.nextId }
  (subscriber,
   { st with subscribers := st.subscribers ++ [subscriber], nextId := st.nextId + 1 })

/-- `subscribeOnce(signalCallback)` from the source: call `subscribe`, then
set `singleSignalOnly = true` on the returned object.  The returned handle
and the array element are the same object, so the flag update is visible in
the array; `subscribe` appended the object, so it is the last element. -/
def subscribeOnce (label : Nat) (action : Action) (st : ChannelState) :
    Subscriber × ChannelState :=
  let p := subscribe label action st
  let s := { p.1 with singleSignalOnly := true }
  (s, { p.2 with subscribers := p.2.subscribers.dropLast ++ [s] })

/-- One callback invocation's effect on the channel, per `Action`.  `self`
is the subscriber object whose callback is running. -/
def runAction (self : Subscriber) (st : ChannelState) : ChannelState :=
  match self.action with
  | .pass => st
  | .unsubSelf => unsubscribe self st
  | .unsubId target => unsubscribeId target st
  | .subNewPass label => (subscribe label .pass st).2

/-- The `for (const subscriber of subscribers)` loop body of `publish`,
iterating the live array by index: if `idx` is within the current array,
invoke the callback at `idx` with the payload (recording `(label, payload)`
in the log and applying the callback's `Action`), then, if the subscriber is
one-shot, `unsubscribe` it, and continue with `idx + 1`.  `fuel` bounds the
number of loop steps; see the header comment for why the default fuel is
never exhausted. -/
def publishLoop {π : Type} (payload : π) : Nat → Nat → ChannelState →
    List (Nat × π) → ChannelState × List (Nat × π)
  | 0, _, st, log => (st, log)
  | fuel + 1, idx, st, log =>
    match st.subscribers[idx]? with
    | none => (st, log)
    | some subscriber =>
      let log2 := log ++ [(subscriber.label, payload)]
      let st2 := runAction subscriber st
      let st3 := if subscriber.singleSignalOnly then unsubscribe subscriber st2 else st2
      publishLoop payload fuel (idx + 1) st3 log2

/-- `publish(payload)` from the source: run the live-array iteration from
index 0, returning the final channel state and the invocation log. -/
def publish {π : Type} (payload : π) (st : ChannelState) :
    ChannelState × List (Nat × π) :=
  publishLoop payload (2 * st.subscribers.length + 1) 0 st []

/-- `registerSignal(signalName)`: a fresh channel with an empty
`subscribers` array. -/
def registerSignal (signalName : String) : ChannelState :=
  { signalName := signalName, subscribers := [], nextId := 0 }

/-- Subscribe a list of passive callbacks (left to right) to a channel. -/
def subscribeAll (labels : List Nat) (st : ChannelState) : ChannelState :=
  labels.foldl (fun s lbl => (subscribe lbl .pass s).2) st

/-- The string-keyed properties of `Object.prototype`, all of which are
truthy (methods, the `constructor`, and the `__proto__` accessor) and
visible through the prototype chain of a fresh object literal. -/
def objectPrototypeKeys : List String :=
  ["constructor", "hasOwnProperty", "isPrototypeOf", "propertyIsEnumerable",
   "toLocaleString", "toString", "valueOf", "__proto__",
   "__defineGetter__", "__defineSetter__", "__lookupGetter__", "__lookupSetter__"]

/-- Truthiness of `signals[name]` where `signals` started as `{}` and owns
the keys of `acc`: an own property (always a truthy Signal object) or any
inherited `Object.prototype` property. -/
def jsTruthyLookup (acc : List (String × ChannelState)) (name : String) : Bool :=
  (acc.find? (fun p => p.1 == name)).isSome || objectPrototypeKeys.contains name

/-- The construction loop of `createSignalStation`: for each name in order,
`if (signals[signalName]) throw`, else assign
`signals[signalName] = registerSignal(signalName)`. -/
def buildSignals : List String → List (String × ChannelState) →
    Except String (List (String × ChannelState))
  | [], acc => .ok acc
  | name :: rest, acc =>
    if jsTruthyLookup acc name then .error name
    else buildSignals rest (acc ++ [(name, registerSignal name)])

/-- `createSignalStation(...signalNames)`: build the signal map from the
empty object and return its spread `{...signals}` (same own properties in
the same insertion order). -/
def createSignalStation (names : List String) :
    Except String (List (String × ChannelState)) :=
  buildSignals names []

/-- One invocation of a channel operation, for stating frame properties of a
station: `sub`/`subOnce` with a callback, `unsub` with a subscription
handle, `pub` with a payload. -/
inductive ChannelOp (π : Type) where
  | sub (label : Nat) (action : Action) : ChannelOp π
  | subOnce (label : Nat) (action : Action) : ChannelOp π
  | unsub (s : Subscriber) : ChannelOp π
  | pub (payload : π) : ChannelOp π

/-- Apply a channel operation to a channel, returning the new channel state
and the log of callback invocations it caused (empty except for `pub`). -/
def applyChannelOp {π : Type} : ChannelOp π → ChannelState →
    ChannelState × List (Nat × π)
  | .sub lbl a, ch => ((subscribe lbl a ch).2, [])
  | .subOnce lbl a, ch => ((subscribeOnce lbl a ch).2, [])
  | .unsub s, ch => (unsubscribe s ch, [])
  | .pub payload, ch => publish payload ch

/-- `station[name].op(...)`: look the channel up by name (each channel's
state lives in its own `registerSignal` closure, rendered here as the
association-list entry) and apply the operation to that channel alone.
`none` models the dynamic-host error of invoking an operation on a missing
member. -/
def stationApply {π : Type} (name : String) (op : ChannelOp π)
    (st : List (String × ChannelState)) :
    Option (List (String × ChannelState) × List (Nat × π)) :=
  match st.find? (fun p => p.1 == name) with
  | none => none
  | some q =>
    let r := applyChannelOp op q.2
    some (st.map (fun p => if p.1 == name then (p.1, r.1) else p), r.2)

/-- Replace the channel stored under `name` (used to state that an
operation on one channel is insensitive to another channel's state). -/
def setChannel (name : String) (ch : ChannelState)
    (st : List (String × ChannelState)) : List (String × ChannelState) :=
  st.map (fun p => if p.1 == name then (p.1, ch) else p)

end SignalStation

namespace SignalStation

/-- The subscriber objects produced by subscribing the passive callbacks
`labels` in order to a channel named `name` whose identity allocator stands
at `i`. -/
def mkPassSubs (name : String) : Nat → List Nat → List Subscriber
  | _, [] => []
  | i, l :: ls =>
    { label := l, action := .pass, signalName := name,
      singleSignalOnly := false, id := i } :: mkPassSubs name (i + 1) ls

theorem mkPassSubs_length (name : String) :
    ∀ (i : Nat) (ls : List Nat), (mkPassSubs name i ls).length = ls.length := by
  intro i ls
  induction ls generalizing i with
  | nil => rfl
  | cons l ls ih => simp [mkPassSubs, ih]

theorem mkPassSubs_passive (name : String) :
    ∀ (i : Nat) (ls : List Nat) (s : Subscriber), s ∈ mkPassSubs name i ls →
      s.action = .pass ∧ s.singleSignalOnly = false := by
  intro i ls
  induction ls generalizing i with
  | nil => intro s hs; simp [mkPassSubs] at hs
  | cons l ls ih =>
    intro s hs
    simp only [mkPassSubs, List.mem_cons] at hs
    rcases hs with hs | hs
    · subst hs; exact ⟨rfl, rfl⟩
    · exact ih (i + 1) s hs

theorem mkPassSubs_map_label {π : Type} (name : String) (payload : π) :
    ∀ (i : Nat) (ls : List Nat),
      (mkPassSubs name i ls).map (fun s => (s.label, payload)) =
        ls.map (fun l => (l, payload)) := by
  intro i ls
  induction ls generalizing i with
  | nil => rfl
  | cons l ls ih => simp [mkPassSubs, ih]

theorem subscribeAll_eq (name : String) (labels : List Nat) :
    ∀ (subs : List Subscriber) (n : Nat),
      subscribeAll labels ⟨name, subs, n⟩ =
        ⟨name, subs ++ mkPassSubs name n labels, n + labels.length⟩ := by
  induction labels with
  | nil => intro subs n; simp [subscribeAll, mkPassSubs]
  | cons l ls ih =>
    intro subs n
    have hstep : subscribeAll (l :: ls) ⟨name, subs, n⟩ =
        subscribeAll ls ⟨name, subs ++
          [{ label := l, action := .pass, signalName := name,
             singleSignalOnly := false, id := n }], n + 1⟩ := rfl
    rw [hstep, ih]
    simp [mkPassSubs]
    omega

/-- Iterating `publish`'s loop over a tail of passive, non-one-shot
subscribers leaves the channel unchanged and appends one log entry per
remaining subscriber, in order, each carrying the payload. -/
theorem publishLoop_passive {π : Type} (payload : π) (name : String) (nid : Nat) :
    ∀ (fuel idx : Nat) (subs : List Subscriber) (log : List (Nat × π)),
      (∀ s ∈ subs.drop idx, s.action = .pass ∧ s.singleSignalOnly = false) →
      subs.length ≤ idx + fuel →
      publishLoop payload fuel idx ⟨name, subs, nid⟩ log =
        (⟨name, subs, nid⟩, log ++ (subs.drop idx).map (fun s => (s.label, payload))) := by
  intro fuel
  induction fuel with
  | zero =>
    intro idx subs log _ hlen
    have hnil : subs.drop idx = [] := List.drop_eq_nil_of_le (by omega)
    simp [publishLoop, hnil]
  | succ n ih =>
    intro idx subs log h hlen
    by_cases hidx : idx < subs.length
    · have hget : subs[idx]? = some subs[idx] := List.getElem?_eq_getElem hidx
      have hdropc : subs.drop idx = subs[idx] :: subs.drop (idx + 1) :=
        List.drop_eq_getElem_cons hidx
      have hmem : subs[idx] ∈ subs.drop idx := by
        rw [hdropc]; exact List.mem_cons_self _ _
      obtain ⟨hp, ho⟩ := h _ hmem
      have h2 : ∀ s ∈ subs.drop (idx + 1), s.action = .pass ∧ s.singleSignalOnly = false :=
        fun s hs => h s (by rw [hdropc]; exact List.mem_cons_of_mem _ hs)
      have hrun : runAction subs[idx] ⟨name, subs, nid⟩ = ⟨name, subs, nid⟩ := by
        simp [runAction, hp]
      rw [publishLoop]
      simp only [hget, hrun, ho, if_neg Bool.false_ne_true]
      rw [ih (idx + 1) subs (log ++ [(subs[idx].label, payload)]) h2 (by omega)]
      rw [hdropc, List.map_cons]
      simp only [List.append_assoc, List.singleton_append]

    · have hget : subs[idx]? = none := List.getElem?_eq_none (by omega)
      have hnil : subs.drop idx = [] := List.drop_eq_nil_of_le (by omega)
      rw [publishLoop]
      simp [hget, hnil]

end SignalStation

namespace SignalStation

/-- C1: on a channel populated by `subscribe` with the N passive callbacks
`labels` (no one-shots), `publish payload` invokes all N callbacks, in the
order the subscriptions were created, each receiving exactly `payload`, and
leaves the subscriber sequence unchanged. -/
theorem publish_delivers_all_in_order {π : Type} (name : String)
    (labels : List Nat) (payload : π) :
    publish payload (subscribeAll labels (registerSignal name)) =
      (subscribeAll labels (registerSignal name),
       labels.map (fun l => (l, payload))) := by
  have hs : subscribeAll labels (registerSignal name) =
      ⟨name, mkPassSubs name 0 labels, labels.length⟩ := by
    simpa [registerSignal] using subscribeAll_eq name labels [] 0
  rw [hs]
  unfold publish
  rw [publishLoop_passive payload name labels.length _ 0 (mkPassSubs name 0 labels) []
      (fun s hs2 => mkPassSubs_passive name 0 labels s (by simpa using hs2))
      (by simp [mkPassSubs_length]; omega)]
  simp [mkPassSubs_map_label]

/-- C2: the source's `unsubscribe` does `splice(indexOf(subscriber), 1)`
without checking for `-1`; unsubscribing a handle that is not in the
channel's sequence (here: a foreign subscription) therefore removes the
LAST subscriber instead of being a no-op: a channel holding exactly one
subscription ends up empty. -/
theorem unsubscribe_absent_removes_last_subscriber :
    unsubscribe
        { label := 99, action := .pass, signalName := "b",
          singleSignalOnly := false, id := 77 }
        (subscribe 1 .pass (registerSignal "a")).2
      = { signalName := "a", subscribers := [], nextId := 1 } := by
  decide

/-- C3: publishing to a channel holding a one-shot subscription (callback
10) followed by an ordinary subscription (callback 20) invokes ONLY the
one-shot: removing the one-shot mid-iteration shifts the array, the live
`for...of` advances past the shifted element, and the ordinary subscriber
is skipped (it stays in the sequence, undelivered). -/
theorem publish_skips_subscriber_after_one_shot :
    (publish (1 : Nat)
        (subscribe 20 .pass (subscribeOnce 10 .pass (registerSignal "a")).2).2).2
      = [(10, 1)]
    ∧ ((publish (1 : Nat)
        (subscribe 20 .pass (subscribeOnce 10 .pass (registerSignal "a")).2).2).1.subscribers.map
          (fun s => s.label))
      = [20] := by
  decide

/-- C4: when the first of three subscribers unsubscribes itself from inside
its own callback during a publish, the live iteration skips the subscriber
that shifts into the vacated slot: callbacks 1 and 3 run, callback 2 is
never invoked although it stays subscribed. -/
theorem publish_skips_after_self_unsubscribe :
    (publish (5 : Nat)
        (subscribe 3 .pass
          (subscribe 2 .pass
            (subscribe 1 .unsubSelf (registerSignal "a")).2).2).2).2
      = [(1, 5), (3, 5)] := by
  decide

/-- C6: with two one-shot subscriptions (callbacks 1 and 2), the first
publish (payload 1) delivers only to callback 1 and skips callback 2
(which stays in the sequence, still flagged one-shot); the second publish
then delivers payload 2 to callback 2 and removes it.  Across both
publishes callback 2 is invoked exactly once — the at-most-once half of
the claim — but with the SECOND publish's payload, not the payload of the
first publish after its subscription, as the claim requires. -/
theorem second_one_shot_receives_second_payload :
    (publish (1 : Nat)
        (subscribeOnce 2 .pass (subscribeOnce 1 .pass (registerSignal "a")).2).2).2
      = [(1, 1)]
    ∧ ((publish (1 : Nat)
        (subscribeOnce 2 .pass (subscribeOnce 1 .pass (registerSignal "a")).2).2).1.subscribers.map
          (fun s => (s.label, s.singleSignalOnly)))
      = [(2, true)]
    ∧ (publish (2 : Nat)
        (publish (1 : Nat)
          (subscribeOnce 2 .pass (subscribeOnce 1 .pass (registerSignal "a")).2).2).1).2
      = [(2, 2)]
    ∧ (publish (2 : Nat)
        (publish (1 : Nat)
          (subscribeOnce 2 .pass (subscribeOnce 1 .pass (registerSignal "a")).2).2).1).1.subscribers
      = [] := by
  decide

/-- C7's success half as stated is false: the duplicate check
`if (signals[signalName])` sees the inherited `Object.prototype.toString`,
so `createSignalStation("toString")` throws although the (one-element) name
list is pairwise distinct. -/
theorem createSignalStation_rejects_toString :
    createSignalStation ["toString"] = .error "toString" := by
  rfl

/-- C8 as stated is false: `createSignalStation("hasOwnProperty")` throws
on a pairwise-distinct name list (the inherited `Object.prototype`
property makes the duplicate check truthy), so no station with exactly that
channel is returned. -/
theorem createSignalStation_rejects_hasOwnProperty :
    createSignalStation ["hasOwnProperty"] = .error "hasOwnProperty" := by
  rfl

end SignalStation

namespace SignalStation

theorem jsTruthyLookup_false (acc : List (String × ChannelState)) (name : String)
    (h1 : acc.find? (fun p => p.1 == name) = none)
    (h2 : name ∉ objectPrototypeKeys) :
    jsTruthyLookup acc name = false := by
  simp [jsTruthyLookup, h1, List.contains, List.elem_eq_mem, h2]

/-- With no inherited-key collisions, no duplicates, and an accumulator
disjoint from the remaining names, the construction loop succeeds and
appends one fresh channel per name, in order. -/
theorem buildSignals_ok (names : List String) :
    ∀ acc : List (String × ChannelState),
      (∀ nm ∈ names, nm ∉ objectPrototypeKeys) →
      names.Nodup →
      (∀ nm ∈ names, acc.find? (fun p => p.1 == nm) = none) →
      buildSignals names acc =
        .ok (acc ++ names.map (fun nm => (nm, registerSignal nm))) := by
  induction names with
  | nil => intro acc _ _ _; simp [buildSignals]
  | cons name rest ih =>
    intro acc hclean hnd hdisj
    have hlook : jsTruthyLookup acc name = false :=
      jsTruthyLookup_false acc name (hdisj name (List.mem_cons_self _ _))
        (hclean name (List.mem_cons_self _ _))
    rw [buildSignals, hlook]
    simp only [Bool.false_eq_true, if_false]
    rw [List.nodup_cons] at hnd
    rw [ih (acc ++ [(name, registerSignal name)])
        (fun nm h => hclean nm (List.mem_cons_of_mem _ h)) hnd.2 ?hdisj2]
    · simp
    case hdisj2 =>
      intro nm hnm
      rw [List.find?_append, hdisj nm (List.mem_cons_of_mem _ hnm)]
      have : nm ≠ name := fun h => hnd.1 (h ▸ hnm)
      simp [Option.or, Ne.symm this]

/-- If the remaining names contain a duplicate, or one of them is already a
key of the accumulator, the construction loop throws; the offending name
either occurs at least twice among the remaining names or was an
accumulator key. -/
theorem buildSignals_err (names : List String) :
    ∀ acc : List (String × ChannelState),
      (∀ nm ∈ names, nm ∉ objectPrototypeKeys) →
      (¬ names.Nodup ∨ ∃ nm ∈ names, (acc.find? (fun p => p.1 == nm)).isSome) →
      ∃ e, buildSignals names acc = .error e ∧
        (2 ≤ names.count e ∨
         ((acc.find? (fun p => p.1 == e)).isSome ∧ e ∈ names)) := by
  induction names with
  | nil =>
    intro acc _ hbad
    rcases hbad with h | ⟨nm, hnm, _⟩
    · exact absurd List.nodup_nil h
    · simp at hnm
  | cons name rest ih =>
    intro acc hclean hbad
    by_cases hlook : jsTruthyLookup acc name = true
    · refine ⟨name, ?_, Or.inr ⟨?_, List.mem_cons_self _ _⟩⟩
      · rw [buildSignals, hlook]
        simp
      · have hproto := hclean name (List.mem_cons_self _ _)
        have hcont : objectPrototypeKeys.contains name = false := by
          simp [List.contains, List.elem_eq_mem, hproto]
        unfold jsTruthyLookup at hlook
        rw [hcont] at hlook
        simpa using hlook
    · have hlookf : jsTruthyLookup acc name = false := by
        simpa using hlook
      have hfnone : acc.find? (fun p => p.1 == name) = none := by
        rcases hfind : acc.find? (fun p => p.1 == name) with _ | q
        · exact hfind
        · exfalso
          apply hlook
          simp [jsTruthyLookup, hfind]
      have hclean2 : ∀ nm ∈ rest, nm ∉ objectPrototypeKeys :=
        fun nm h => hclean nm (List.mem_cons_of_mem _ h)
      have hbad2 : ¬ rest.Nodup ∨
          ∃ nm ∈ rest,
            (((acc ++ [(name, registerSignal name)]).find?
              (fun p => p.1 == nm)).isSome) := by
        rcases hbad with h | ⟨nm, hnm, hsome⟩
        · rw [List.nodup_cons] at h
          by_cases hmem : name ∈ rest
          · refine Or.inr ⟨name, hmem, ?_⟩
            rw [List.find?_append, hfnone]
            simp [Option.or]
          · exact Or.inl (fun hh => h ⟨hmem, hh⟩)
        · rcases List.mem_cons.mp hnm with rfl | hnm2
          · rw [hfnone] at hsome
            simp at hsome
          · refine Or.inr ⟨nm, hnm2, ?_⟩
            rw [List.find?_append]
            rcases hfind : acc.find? (fun p => p.1 == nm) with _ | q
            · rw [hfind] at hsome
              simp at hsome
            · simp [Option.or, hfind]
      obtain ⟨e, he, hcnt⟩ := ih (acc ++ [(name, registerSignal name)]) hclean2 hbad2
      refine ⟨e, ?_, ?_⟩
      · rw [buildSignals, hlookf]
        simpa using he
      · rcases hcnt with h2 | ⟨hsome, hmem⟩
        · refine Or.inl ?_
          rw [List.count_cons]
          omega
        · rw [List.find?_append] at hsome
          by_cases he2 : e = name
          · subst he2
            refine Or.inl ?_
            have hpos : 0 < rest.count e := List.count_pos_iff.mpr hmem
            rw [List.count_cons_self]
            omega
          · rcases hfind : acc.find? (fun p => p.1 == e) with _ | q
            · exfalso
              rw [hfind] at hsome
              simp [Option.or] at hsome
              exact he2 hsome.symm
            · exact Or.inr ⟨by simp [hfind], List.mem_cons_of_mem _ hmem⟩

end SignalStation

namespace SignalStation

/-- A lookup that is truthy on an object stays truthy after another own
property is assigned. -/
theorem jsTruthyLookup_append (acc : List (String × ChannelState))
    (x : String × ChannelState) (nm : String)
    (h : jsTruthyLookup acc nm = true) :
    jsTruthyLookup (acc ++ [x]) nm = true := by
  unfold jsTruthyLookup at h ⊢
  simp only [Bool.or_eq_true] at h ⊢
  rcases h with h | h
  · left
    rw [List.find?_append]
    rcases hf : acc.find? (fun p => p.1 == nm) with _ | q
    · rw [hf] at h
      simp at h
    · simp [Option.or, hf]
  · right
    exact h

/-- A falsy lookup means in particular that no own property with that key
exists yet. -/
theorem find?_eq_none_of_lookup_false (acc : List (String × ChannelState))
    (nm : String) (h : jsTruthyLookup acc nm = false) :
    acc.find? (fun p => p.1 == nm) = none := by
  unfold jsTruthyLookup at h
  rcases hf : acc.find? (fun p => p.1 == nm) with _ | q
  · exact hf
  · rw [hf] at h
    simp at h

/-- Whenever the remaining names contain a duplicate — no matter whether
any name collides with an inherited `Object.prototype` property — or some
remaining name is already a truthy key, the construction loop throws. -/
theorem buildSignals_raises (names : List String) :
    ∀ acc : List (String × ChannelState),
      (¬ names.Nodup ∨ ∃ nm ∈ names, jsTruthyLookup acc nm = true) →
      ∃ e, buildSignals names acc = .error e := by
  induction names with
  | nil =>
    intro acc hbad
    rcases hbad with h | ⟨nm, hnm, _⟩
    · exact absurd List.nodup_nil h
    · simp at hnm
  | cons name rest ih =>
    intro acc hbad
    by_cases hlook : jsTruthyLookup acc name = true
    · refine ⟨name, ?_⟩
      rw [buildSignals, hlook]
      simp
    · have hlookf : jsTruthyLookup acc name = false := by simpa using hlook
      have hbad2 : ¬ rest.Nodup ∨
          ∃ nm ∈ rest,
            jsTruthyLookup (acc ++ [(name, registerSignal name)]) nm = true := by
        rcases hbad with h | ⟨nm, hnm, htr⟩
        · rw [List.nodup_cons] at h
          by_cases hmem : name ∈ rest
          · refine Or.inr ⟨name, hmem, ?_⟩
            unfold jsTruthyLookup
            simp only [Bool.or_eq_true]
            left
            rw [List.find?_append, find?_eq_none_of_lookup_false acc name hlookf]
            simp [Option.or]
          · exact Or.inl fun hh => h ⟨hmem, hh⟩
        · rcases List.mem_cons.mp hnm with rfl | hnm2
          · exact absurd htr hlook
          · exact Or.inr ⟨nm, hnm2, jsTruthyLookup_append acc _ nm htr⟩
      obtain ⟨e, he⟩ := ih (acc ++ [(name, registerSignal name)]) hbad2
      refine ⟨e, ?_⟩
      rw [buildSignals, hlookf]
      simpa using he

/-- C7, amended: for every name list containing at least one repeated
name, `createSignalStation` throws — unconditionally, whether or not any
name collides with an inherited `Object.prototype` property; when
additionally no supplied name is an `Object.prototype` property name, the
thrown error identifies a name that occurs at least twice in the list, and
for every list of pairwise-distinct such names construction succeeds (the
unamended claim fails on e.g. `"toString"`, whose inherited property makes
the duplicate check truthy even without a repetition). -/
theorem createSignalStation_duplicate_detection (names : List String) :
    (¬ names.Nodup → ∃ e, createSignalStation names = .error e)
    ∧ ((∀ nm ∈ names, nm ∉ objectPrototypeKeys) →
      (names.Nodup →
        createSignalStation names =
          .ok (names.map (fun nm => (nm, registerSignal nm))))
      ∧ (¬ names.Nodup →
        ∃ e, createSignalStation names = .error e ∧ 2 ≤ names.count e)) := by
  refine ⟨?_, fun hclean => ⟨?_, ?_⟩⟩
  · intro hdup
    exact buildSignals_raises names [] (Or.inl hdup)
  · intro hnd
    simpa [createSignalStation] using buildSignals_ok names [] hclean hnd (by simp)
  · intro hdup
    obtain ⟨e, he, hcnt⟩ := buildSignals_err names [] hclean (Or.inl hdup)
    refine ⟨e, he, ?_⟩
    rcases hcnt with h | ⟨hsome, _⟩
    · exact h
    · simp at hsome

/-- Witness for C7's amended theorem: the unconditional raise clause at the
duplicate list `["toString", "toString"]` (a repeated `Object.prototype`
property name), and the error-identification clause at `["a", "b", "a"]`,
where the error carries a name occurring twice. -/
theorem createSignalStation_duplicate_detection_witness :
    (∃ e, createSignalStation ["toString", "toString"] = .error e)
    ∧ (∃ e, createSignalStation ["a", "b", "a"] = .error e ∧
        2 ≤ (["a", "b", "a"] : List String).count e) :=
  ⟨(createSignalStation_duplicate_detection ["toString", "toString"]).1 (by decide),
   ((createSignalStation_duplicate_detection ["a", "b", "a"]).2 (by decide)).2 (by decide)⟩

/-- C8, amended: for every list of pairwise-distinct names, none of which
collides with an `Object.prototype` property name, `createSignalStation`
succeeds; the returned station binds exactly the supplied names, in order,
each to a channel with an empty subscriber sequence, and looking up any
other name finds nothing (no channel is created by the lookup, which does
not modify the station). -/
theorem createSignalStation_success (names : List String)
    (hnd : names.Nodup) (hclean : ∀ nm ∈ names, nm ∉ objectPrototypeKeys) :
    createSignalStation names =
        .ok (names.map (fun nm => (nm, registerSignal nm)))
    ∧ (names.map (fun nm => (nm, registerSignal nm))).map Prod.fst = names
    ∧ (∀ q ∈ names.map (fun nm => (nm, registerSignal nm)), q.2.subscribers = [])
    ∧ ∀ nm, nm ∉ names →
        (names.map (fun nm2 => (nm2, registerSignal nm2))).find?
          (fun p => p.1 == nm) = none := by
  refine ⟨?_, ?_, ?_, ?_⟩
  · simpa [createSignalStation] using buildSignals_ok names [] hclean hnd (by simp)
  · simp [Function.comp_def]
  · intro q hq
    simp only [List.mem_map] at hq
    obtain ⟨nm, _, rfl⟩ := hq
    rfl
  · intro nm hnm
    rw [List.find?_eq_none]
    intro p hp
    simp only [List.mem_map] at hp
    obtain ⟨nm2, hnm2, rfl⟩ := hp
    simp only [beq_iff_eq]
    exact fun h => hnm (h ▸ hnm2)

/-- Witness for C8's amended theorem at the concrete distinct name list
`["a", "b"]`. -/
theorem createSignalStation_success_witness :
    createSignalStation ["a", "b"] =
      .ok ((["a", "b"] : List String).map (fun nm => (nm, registerSignal nm))) :=
  (createSignalStation_success ["a", "b"] (by decide) (by decide)).1

end SignalStation

namespace SignalStation

/-- Updating the channel stored under key `a` does not change what a lookup
of a different key `b` finds. -/
theorem find?_update_other (a b : String) (hab : a ≠ b) (newch : ChannelState) :
    ∀ st : List (String × ChannelState),
      (st.map (fun p => if p.1 == a then (p.1, newch) else p)).find?
          (fun p => p.1 == b) =
        st.find? (fun p => p.1 == b) := by
  intro st
  rw [List.find?_map]
  have hpred : ((fun p : String × ChannelState => p.1 == b) ∘
      (fun p => if p.1 == a then (p.1, newch) else p)) =
      (fun p : String × ChannelState => p.1 == b) := by
    funext p
    by_cases hpa : p.1 = a
    · simp [hpa]
    · simp [hpa]
  rw [hpred]
  rcases hfind : st.find? (fun p => p.1 == b) with _ | q
  · rw [hfind]
    rfl
  · rw [hfind]
    have hq := List.find?_some hfind
    have hqb : q.1 = b := by simpa using hq
    have hqa : ¬ ((q.1 == a) = true) := by
      simp [hqb]
      exact fun h => hab h.symm
    simp only [Option.map_some', if_neg hqa]

/-- Updating the channels under two different keys commutes. -/
theorem setChannel_update_comm (a b : String) (hab : a ≠ b)
    (ch newch : ChannelState) (st : List (String × ChannelState)) :
    (setChannel b ch st).map (fun p => if p.1 == a then (p.1, newch) else p) =
      setChannel b ch (st.map (fun p => if p.1 == a then (p.1, newch) else p)) := by
  simp only [setChannel, List.map_map]
  apply List.map_congr_left
  intro p _
  simp only [Function.comp_apply]
  by_cases hpb : p.1 = b
  · simp [hpb, Ne.symm hab]
  · by_cases hpa : p.1 = a
    · simp [hpa, hpb, hab]
    · simp [hpa, hpb]

/-- C9: channels of one station are independent: when a `subscribe`,
`subscribeOnce`, `unsubscribe`, or `publish` call on channel `a` succeeds,
the entry a lookup of a different channel `b` finds is unchanged, and the
whole outcome — updated station and delivery log — is insensitive to the
channel state stored under `b` (so `b`'s subscribers receive no delivery
from `a`'s publish). -/
theorem channel_operations_independent {π : Type} (a b : String) (hab : a ≠ b)
    (op : ChannelOp π) (st st2 : List (String × ChannelState))
    (log : List (Nat × π))
    (h : stationApply a op st = some (st2, log)) :
    st2.find? (fun p => p.1 == b) = st.find? (fun p => p.1 == b)
    ∧ ∀ ch : ChannelState,
        stationApply a op (setChannel b ch st) =
          some (setChannel b ch st2, log) := by
  unfold stationApply at h
  rcases hfind : st.find? (fun p => p.1 == a) with _ | q
  · rw [hfind] at h
    simp at h
  · rw [hfind] at h
    simp only [Option.some.injEq, Prod.mk.injEq] at h
    obtain ⟨hst2, hlog⟩ := h
    subst hst2
    subst hlog
    constructor
    · exact find?_update_other a b hab _ st
    · intro ch
      unfold stationApply
      have hfind2 : (setChannel b ch st).find? (fun p => p.1 == a) = some q := by
        rw [setChannel, find?_update_other b a (Ne.symm hab) ch st, hfind]
      rw [hfind2]
      show some ((setChannel b ch st).map
          (fun p => if p.1 == a then (p.1, (applyChannelOp op q.2).1) else p),
        (applyChannelOp op q.2).2) = _
      rw [setChannel_update_comm a b hab ch (applyChannelOp op q.2).1 st]

/-- Witness for C9 at a concrete two-channel station: subscribing callback
5 on channel `"a"` leaves channel `"b"`'s entry untouched and is
insensitive to `"b"`'s channel state. -/
theorem channel_operations_independent_witness :
    ([("a", { signalName := "a",
              subscribers := [{ label := 5, action := .pass, signalName := "a",
                                singleSignalOnly := false, id := 0 }],
              nextId := 1 }),
      ("b", registerSignal "b")] : List (String × ChannelState)).find?
        (fun p => p.1 == "b") =
      ([("a", registerSignal "a"), ("b", registerSignal "b")] :
        List (String × ChannelState)).find? (fun p => p.1 == "b")
    ∧ ∀ ch : ChannelState,
        stationApply (π := Nat) "a" (.sub 5 .pass)
            (setChannel "b" ch [("a", registerSignal "a"), ("b", registerSignal "b")]) =
          some (setChannel "b" ch
            [("a", { signalName := "a",
                     subscribers := [{ label := 5, action := .pass, signalName := "a",
                                       singleSignalOnly := false, id := 0 }],
                     nextId := 1 }),
             ("b", registerSignal "b")], []) :=
  channel_operations_independent "a" "b" (by decide) (.sub 5 .pass)
    [("a", registerSignal "a"), ("b", registerSignal "b")]
    [("a", { signalName := "a",
             subscribers := [{ label := 5, action := .pass, signalName := "a",
                               singleSignalOnly := false, id := 0 }],
             nextId := 1 }),
     ("b", registerSignal "b")] [] rfl

/-- C10: subscribing the same callback `cb` twice to one channel yields two
distinct subscription objects, both held in the sequence in order; a
publish then invokes the callback once per subscription (two log entries),
and unsubscribing the first handle leaves the second registered. -/
theorem same_callback_two_subscriptions {π : Type} (cb : Nat) (name : String)
    (payload : π) :
    (subscribe cb .pass (registerSignal name)).1 ≠
        (subscribe cb .pass (subscribe cb .pass (registerSignal name)).2).1
    ∧ (subscribe cb .pass (subscribe cb .pass (registerSignal name)).2).2.subscribers =
        [(subscribe cb .pass (registerSignal name)).1,
         (subscribe cb .pass (subscribe cb .pass (registerSignal name)).2).1]
    ∧ (publish payload
        (subscribe cb .pass (subscribe cb .pass (registerSignal name)).2).2).2 =
        [(cb, payload), (cb, payload)]
    ∧ (unsubscribe (subscribe cb .pass (registerSignal name)).1
          (subscribe cb .pass (subscribe cb .pass (registerSignal name)).2).2).subscribers =
        [(subscribe cb .pass (subscribe cb .pass (registerSignal name)).2).1] := by
  refine ⟨?_, rfl, rfl, rfl⟩
  intro hcontra
  have := congrArg Subscriber.id hcontra
  simp [subscribe, registerSignal] at this

end SignalStation
